import Mathlib

/-!
Verification of the prompt-manager repository: hybrid search engine
(`src/core/SemanticSearch.js`, `App.filterAndSortPrompts` in `app.js`),
the prompt service (`src/core/PromptService.js`), the Vault backend
(`src/repo/VaultRepo.js`) and the local database backend
(`src/repo/IndexedDBRepo.js`).

Numeric idealisation: JavaScript numbers are modelled as rationals (`ℚ`),
strings as Lean `String` / `List Char`.  The embedding model is an
external collaborator, so every place the code awaits `embed(text)` the
model takes the resulting vector (`Option (List ℚ)`, `none` for a null
result) as an explicit argument.
-/

/-- One entry of a prompt's append-only version history
(shape produced by `saveCurrent` / `PromptService.createVersion`). -/
structure Version where
  version_no : Nat
  prompt_text : String
  notes : String
  date_created : String
deriving DecidableEq

/-- The prompt document shape (`PromptService.createPrompt`).
`embedding` is the optional similarity vector (`null` → `none`). -/
structure Prompt where
  id : String
  title : String
  description : String
  prompt_text : String
  tags : String
  status : String
  notes : String
  category : String
  client : String
  date_created : String
  versions : List Version
  embedding : Option (List ℚ)
deriving DecidableEq

/-- The template document shape (`saveTemplate` in `app.js`). -/
structure Template where
  id : String
  description : String
  notes : String
  template_text : String
  is_favourite : Bool
  order : Int
deriving DecidableEq

/-- The dot-product loop of `SemanticSearch.cosineSimilarity`
(`for i < vecA.length: dot += vecA[i] * vecB[i]`, on equal lengths). -/
def dotProduct (a b : List ℚ) : ℚ :=
  (List.zipWith (fun x y => x * y) a b).sum

/-- `SemanticSearch.cosineSimilarity(vecA, vecB)`: returns 0 when either
argument is null or the lengths differ, otherwise the dot product
(the code assumes normalized vectors).  JavaScript arrays are always
truthy, so only `null`/`undefined` (here `none`) hit the guard. -/
def cosineSimilarity : Option (List ℚ) → Option (List ℚ) → ℚ
  | none, _ => 0
  | some _, none => 0
  | some a, some b => if a.length = b.length then dotProduct a b else 0

/-- One element of the list returned by `SemanticSearch.search`:
`{ id: p.id, score: ... }`. -/
structure ScoredResult where
  id : String
  score : ℚ
deriving DecidableEq

/-- `SemanticSearch.search(query, prompts, topK)`.  `isLoaded` is the
model-readiness flag; `queryVec` is the value of `await this.embed(query)`
(`none` both when the embed call fails and when the query is empty).
The code keeps only prompts with a (truthy) embedding, scores them,
drops scores below `minScore`, sorts by descending score (JS sort is
stable, hence `insertionSort`) and takes the first `topK`. -/
def semanticSearch (isLoaded : Bool) (queryVec : Option (List ℚ))
    (prompts : List Prompt) (minScore : ℚ) (topK : Nat) : List ScoredResult :=
  if !isLoaded then []
  else
    match queryVec with
    | none => []
    | some qv =>
      let scored :=
        ((prompts.filter (fun p => p.embedding.isSome)).map
          (fun p => ⟨p.id, cosineSimilarity (some qv) p.embedding⟩ : Prompt → ScoredResult)).filter
          (fun r => decide (minScore ≤ r.score))
      (List.insertionSort (fun a b => b.score ≤ a.score) scored).take topK

/-- `new Map(semanticResults.map(r => [r.id, r.score])).get(id)`:
a JS `Map` built from a list keeps the last entry for a duplicated key. -/
def scoreMapGet (rs : List ScoredResult) (id : String) : Option ℚ :=
  rs.foldl (fun acc r => if r.id = id then some r.score else acc) none

/-- The effective score used by the semantic re-ranking in
`App.filterAndSortPrompts`: `scoreMap.get(a.id) || 0`. -/
def effScore (rs : List ScoredResult) (p : Prompt) : ℚ :=
  (scoreMapGet rs p.id).getD 0

/-- The filter state object of `App` (`this.state.filter`). -/
structure SearchFilter where
  search : String
  category : String
  client : String
  status : String
  sort : String
deriving DecidableEq

/-- The exact-match filter conjunction shared by both branches of
`App.filterAndSortPrompts` and by `PromptService.filterPrompts`:
each of category/client/status is checked only when the filter string
is truthy (non-empty). -/
def passesFilters (f : SearchFilter) (p : Prompt) : Bool :=
  (f.category == "" || p.category == f.category) &&
  (f.client == "" || p.client == f.client) &&
  (f.status == "" || p.status == f.status)

/-- `String.toLowerCase` on the character list of a string. -/
def lowerChars (s : String) : List Char :=
  s.data.map Char.toLower

/-- `hay.includes(needle)` on character lists: the needle occurs as a
contiguous substring of the haystack. -/
def hasSubstr (needle : List Char) : List Char → Bool
  | [] => needle.isEmpty
  | c :: t => needle.isPrefixOf (c :: t) || hasSubstr needle t

/-- The keyword search source of `App.filterAndSortPrompts`:
`(prompt.title + prompt.description + prompt.prompt_text + (prompt.tags || '')).toLowerCase()`
— one concatenated string, notes not included. -/
def appSearchSource (p : Prompt) : List Char :=
  lowerChars (p.title ++ p.description ++ p.prompt_text ++ p.tags)

/-- `searchSource.includes(filter.search.toLowerCase())`. -/
def matchesKeywordApp (q : String) (p : Prompt) : Bool :=
  hasSubstr (lowerChars q) (appSearchSource p)

/-- Lexicographic comparison of character lists, the idealisation of
`localeCompare` used by the `name-asc`/`cat-asc`/`client-asc` sort keys. -/
def strLeChars : List Char → List Char → Bool
  | [], _ => true
  | _ :: _, [] => false
  | a :: as, b :: bs => if a = b then strLeChars as bs else decide (a < b)

/-- The `switch (sortMode)` sort of the keyword branch of
`App.filterAndSortPrompts` (and of `PromptService.sortPrompts`).
`dateVal` is the external date parser (`new Date(s)` as a number).
JS `Array.prototype.sort` is stable, hence `insertionSort`; the
comparator `cmp(a, b) <= 0` becomes the relation passed to it.
The `default` branch leaves the order unchanged. -/
def sortedByKey (dateVal : String → ℚ) (key : String) (l : List Prompt) : List Prompt :=
  match key with
  | "date-asc" =>
    List.insertionSort (fun a b => dateVal a.date_created ≤ dateVal b.date_created) l
  | "date-desc" =>
    List.insertionSort (fun a b => dateVal b.date_created ≤ dateVal a.date_created) l
  | "name-asc" =>
    List.insertionSort (fun a b => strLeChars a.title.data b.title.data = true) l
  | "cat-asc" =>
    List.insertionSort (fun a b => strLeChars a.category.data b.category.data = true) l
  | "client-asc" =>
    List.insertionSort (fun a b => strLeChars a.client.data b.client.data = true) l
  | _ => l

/-- The keyword (`else`) branch of `App.filterAndSortPrompts`: substring
match against the concatenated source AND the exact filters, then the
requested sort (`filter.sort || 'date-desc'`). -/
def appKeywordBranch (dateVal : String → ℚ) (f : SearchFilter)
    (prompts : List Prompt) : List Prompt :=
  sortedByKey dateVal (if f.sort = "" then "date-desc" else f.sort)
    (prompts.filter (fun p => matchesKeywordApp f.search p && passesFilters f p))

/-- The semantic branch of `App.filterAndSortPrompts`: run
`semantic.search` (top-50 default), build the score map, keep every
prompt passing the exact filters, and stably re-rank by descending
effective score (`scoreMap.get(id) || 0`). -/
def appSemanticBranch (isLoaded : Bool) (queryVec : Option (List ℚ))
    (minScore : ℚ) (f : SearchFilter) (prompts : List Prompt) : List Prompt :=
  let rs := semanticSearch isLoaded queryVec prompts minScore 50
  List.insertionSort (fun a b => effScore rs b ≤ effScore rs a)
    (prompts.filter (fun p => passesFilters f p))

/-- `App.filterAndSortPrompts`: the semantic branch is taken only when
`filter.search && this.semantic.isLoaded && semanticMode`. -/
def filterAndSortPrompts (dateVal : String → ℚ) (semanticMode isLoaded : Bool)
    (queryVec : Option (List ℚ)) (minScore : ℚ) (f : SearchFilter)
    (prompts : List Prompt) : List Prompt :=
  if decide (f.search ≠ "") && isLoaded && semanticMode then
    appSemanticBranch isLoaded queryVec minScore f prompts
  else
    appKeywordBranch dateVal f prompts

/-- `PromptService.keywordSearch(prompts, query)`: empty query returns
everything, otherwise case-insensitive containment in any one of title,
description, prompt text, tags or notes. -/
def keywordSearch (prompts : List Prompt) (query : String) : List Prompt :=
  if query = "" then prompts
  else
    prompts.filter (fun p =>
      hasSubstr (lowerChars query) (lowerChars p.title) ||
      hasSubstr (lowerChars query) (lowerChars p.description) ||
      hasSubstr (lowerChars query) (lowerChars p.prompt_text) ||
      hasSubstr (lowerChars query) (lowerChars p.tags) ||
      hasSubstr (lowerChars query) (lowerChars p.notes))

/-- `PromptService.duplicatePrompt(prompt, generateId)`: spread-copy with
a fresh id, `COPY `-prefixed title (`prompt.title || 'Untitled'`), draft
status, fresh creation date, empty versions and null embedding.
`newId` is the value produced by `generateId()`, `now` the value of
`new Date().toISOString()`. -/
def duplicatePrompt (p : Prompt) (newId : String) (now : String) : Prompt :=
  { p with
    id := newId
    title := "COPY " ++ (if p.title = "" then "Untitled" else p.title)
    status := "draft"
    date_created := now
    versions := []
    embedding := none }

/-- Sum of squares of a vector; `unit-normalized` means this is 1. -/
def sumSquares (v : List ℚ) : ℚ :=
  (v.map (fun x => x * x)).sum

/-! ### Directory Vault backend (`src/repo/VaultRepo.js`)

A directory is a list of files; for the claims under scrutiny only a
file's name and the `id` field of the JSON it stores matter, so a file
is a `(filename, storedId)` pair.  The `fileMap` is the in-memory
Identity-to-Filename index (a JS `Map`, here an association list with
the usual last-write-wins `set`). -/

/-- State of a `VaultRepo` instance: `dir = none` models no directory
having been selected (`this.dirHandle == null`). -/
structure VaultState where
  dir : Option (List (String × String))
  fileMap : List (String × String)
deriving DecidableEq

/-- `Map.prototype.get` on the association-list model. -/
def assocGet (m : List (String × String)) (k : String) : Option String :=
  (m.find? (fun e => e.1 == k)).map (fun e => e.2)

/-- `Map.prototype.set`. -/
def assocSet (m : List (String × String)) (k v : String) :
    List (String × String) :=
  (k, v) :: m.filter (fun e => !(e.1 == k))

/-- `Map.prototype.delete`. -/
def assocErase (m : List (String × String)) (k : String) :
    List (String × String) :=
  m.filter (fun e => !(e.1 == k))

/-- `title.replace(/[^a-z0-9]/gi, '_')` applied to
`prompt.title || 'Untitled'` in `VaultRepo.savePrompt`. -/
def sanitizeTitle (title : String) : String :=
  String.mk ((if title = "" then "Untitled" else title).data.map
    (fun c => if c.isAlphanum then c else '_'))

/-- The filename `VaultRepo.savePrompt` derives for a prompt:
`safeTitle + '__' + id + '.json'`. -/
def vaultPromptFileName (p : Prompt) : String :=
  sanitizeTitle p.title ++ "__" ++ p.id ++ ".json"

/-- `VaultRepo.writeFile(fileName, data)` with `create: true`: replaces
any file of the same name, otherwise adds the file. -/
def vaultWrite (files : List (String × String)) (name id : String) :
    List (String × String) :=
  files.filter (fun e => !(e.1 == name)) ++ [(name, id)]

/-- `VaultRepo.savePrompt(prompt)`: throws `'Vault not connected'` when
no directory is selected; otherwise removes the previously mapped file
when its name differs (failure of that removal is tolerated, which the
list `filter` models: filtering an absent name is a no-op), writes the
new file and updates the index.  There is no directory-scan fallback:
when `fileMap` has no entry for the id, nothing is removed. -/
def vaultSavePrompt (st : VaultState) (p : Prompt) :
    Except String VaultState :=
  match st.dir with
  | none => .error "Vault not connected"
  | some files =>
    let newFileName := vaultPromptFileName p
    let files1 :=
      match assocGet st.fileMap p.id with
      | some old =>
        if old = newFileName then files
        else files.filter (fun e => !(e.1 == old))
      | none => files
    .ok ⟨some (vaultWrite files1 newFileName p.id),
         assocSet st.fileMap p.id newFileName⟩

/-- `VaultRepo.saveTemplate(template)`: same shape with the
`TEMPLATE_`-prefixed filename derived from the description. -/
def vaultSaveTemplate (st : VaultState) (t : Template) :
    Except String VaultState :=
  match st.dir with
  | none => .error "Vault not connected"
  | some files =>
    let safeDesc := String.mk
      ((if t.description = "" then "Template" else t.description).data.map
        (fun c => if c.isAlphanum then c else '_'))
    let newFileName := "TEMPLATE_" ++ safeDesc ++ "__" ++ t.id ++ ".json"
    let files1 :=
      match assocGet st.fileMap t.id with
      | some old =>
        if old = newFileName then files
        else files.filter (fun e => !(e.1 == old))
      | none => files
    .ok ⟨some (vaultWrite files1 newFileName t.id),
         assocSet st.fileMap t.id newFileName⟩

/-- The directory-scan fallback of `VaultRepo.deleteFile`: delete the
first `*.json` file whose parsed id matches; finding none succeeds
(idempotent delete). -/
def vaultScanDelete (files : List (String × String))
    (fm : List (String × String)) (id : String) : Except String VaultState :=
  match files.find? (fun e => e.2 == id) with
  | some f => .ok ⟨some (files.eraseP (fun e => e.1 == f.1)), assocErase fm id⟩
  | none => .ok ⟨some files, fm⟩

/-- `VaultRepo.deleteFile(id)`: silently returns when no directory is
selected; otherwise tries the cached filename (falling through to the
scan when that file is gone), then the scan. -/
def vaultDeleteFile (st : VaultState) (id : String) :
    Except String VaultState :=
  match st.dir with
  | none => .ok st
  | some files =>
    match assocGet st.fileMap id with
    | some cached =>
      if files.any (fun e => e.1 == cached) then
        .ok ⟨some (files.eraseP (fun e => e.1 == cached)),
             assocErase st.fileMap id⟩
      else vaultScanDelete files st.fileMap id
    | none => vaultScanDelete files st.fileMap id

/-- `VaultRepo.deletePrompt(id)` delegates to `deleteFile`. -/
def vaultDeletePrompt (st : VaultState) (id : String) :
    Except String VaultState :=
  vaultDeleteFile st id

/-- `VaultRepo.deleteTemplate(id)` delegates to `deleteFile`. -/
def vaultDeleteTemplate (st : VaultState) (id : String) :
    Except String VaultState :=
  vaultDeleteFile st id

/-- Number of files a full directory scan resolves for a given id. -/
def countFilesWithId (id : String) (st : VaultState) : Nat :=
  match st.dir with
  | none => 0
  | some files => (files.filter (fun e => decide (e.2 = id))).length

/-- Whether the directory holds a file of the given name storing the
given id. -/
def hasFile (st : VaultState) (name id : String) : Bool :=
  match st.dir with
  | none => false
  | some files => files.any (fun e => e.1 == name && e.2 == id)

/-! ### Local database backend (`src/repo/IndexedDBRepo.js`)

`init()` registers handlers on an `indexedDB.open` request; the events
the environment fires drive which handlers run.  The model replays an
event list: `blocked` fires `onblocked` (which only raises an alert),
`errorEvt` fires `onerror` (alert, then `reject("DB Error")`),
`success` fires `onsuccess` (resolve).  A promise settles at most once,
so processing stops at the first settling event. -/

/-- An event fired on the `indexedDB.open` request. -/
inductive DbEvent
  | blocked
  | errorEvt
  | success
deriving DecidableEq

/-- The alert text of the `onblocked` handler. -/
def blockedAlert : String :=
  "Database Update Blocked: Please close all other tabs/windows of this app and refresh."

/-- The alert text of the `onerror` handler. -/
def dbErrorAlert : String :=
  "Database Error. Check console for details."

/-- What a caller of `IndexedDBRepo.init` can observe: the alerts shown
and how (whether) the returned promise settled. -/
structure InitObs where
  alerts : List String
  outcome : Option (Except String Unit)

/-- Replay of `IndexedDBRepo.init` against a sequence of request
events. -/
def runInit : List DbEvent → InitObs
  | [] => ⟨[], none⟩
  | .blocked :: rest =>
    let o := runInit rest
    ⟨blockedAlert :: o.alerts, o.outcome⟩
  | .errorEvt :: _ => ⟨[dbErrorAlert], some (.error "DB Error")⟩
  | .success :: _ => ⟨[], some (.ok ())⟩

/-! ### Concrete documents used in counterexamples and witnesses -/

/-- A date parser assigning every date string the same value; the date
collaborator is irrelevant to the properties under scrutiny. -/
def dateZero : String → ℚ := fun _ => 0

/-- Document with vector `[1, 0]` from the spec's semantic scenario. -/
def exDoc1 : Prompt :=
  ⟨"doc1", "Doc One", "", "", "", "live", "", "", "", "2025-01-01", [],
   some [1, 0]⟩

/-- Document with vector `[0, 1]` from the spec's semantic scenario. -/
def exDoc2 : Prompt :=
  ⟨"doc2", "Doc Two", "", "", "", "live", "", "", "", "2025-01-02", [],
   some [0, 1]⟩

/-- Document with vector `[9/10, 1/10]` from the spec's semantic
scenario. -/
def exDoc3 : Prompt :=
  ⟨"doc3", "Doc Three", "", "", "", "live", "", "", "", "2025-01-03", [],
   some [9/10, 1/10]⟩

/-- A non-empty query with no exact filters active. -/
def exFilterQ : SearchFilter := ⟨"q", "", "", "", "date-desc"⟩

/-- A prompt matching the query `needle` only in its notes field. -/
def exNotesPrompt : Prompt :=
  ⟨"pn", "t", "", "", "", "draft", "needle", "", "", "2025-01-01", [], none⟩

/-- A prompt whose title ends in `a` and description starts with `b`,
so `ab` spans the field boundary. -/
def exSplitPrompt : Prompt :=
  ⟨"px", "a", "b", "", "", "draft", "", "", "", "2025-01-01", [], none⟩

/-- Keyword search filter for the query `needle`. -/
def exFilterNeedle : SearchFilter := ⟨"needle", "", "", "", "date-desc"⟩

/-- Keyword search filter for the query `ab`. -/
def exFilterAB : SearchFilter := ⟨"ab", "", "", "", "date-desc"⟩

/-- Prompt `a` of the spec's filter scenario. -/
def exPromptA : Prompt :=
  ⟨"a", "A", "", "", "", "live", "", "X", "", "2025-01-01", [], none⟩

/-- Prompt `b` of the spec's filter scenario. -/
def exPromptB : Prompt :=
  ⟨"b", "B", "", "", "", "live", "", "Y", "", "2025-01-02", [], none⟩

/-- Prompt `c` of the spec's filter scenario. -/
def exPromptC : Prompt :=
  ⟨"c", "C", "", "", "", "draft", "", "X", "", "2025-01-03", [], none⟩

/-- The filter `{category: "X"}` of the spec's filter scenario. -/
def exFilterX : SearchFilter := ⟨"", "X", "", "", "date-desc"⟩

/-- A prompt with an empty title. -/
def exUntitledPrompt : Prompt :=
  ⟨"p0", "", "", "", "", "live", "", "", "", "2025-01-01", [], none⟩

/-- Vault prompt `p1` titled `Draft`, as in the spec's rename
scenario. -/
def exVaultDraft : Prompt :=
  ⟨"p1", "Draft", "", "", "", "draft", "", "", "", "2025-01-01", [], none⟩

/-- The same document after its title changed to `Final`. -/
def exVaultFinal : Prompt :=
  ⟨"p1", "Final", "", "", "", "draft", "", "", "", "2025-01-01", [], none⟩

/-- A vault directory holding exactly `Draft__p1.json`, with an empty
identity index: the state right after a restart. -/
def exVaultRestartState : VaultState :=
  ⟨some [("Draft__p1.json", "p1")], []⟩

/-- The same directory with the identity index populated, as a full
`loadAll` leaves it. -/
def exVaultLoadedState : VaultState :=
  ⟨some [("Draft__p1.json", "p1")], [("p1", "Draft__p1.json")]⟩

/-- A vault repo on which no directory was ever selected. -/
def exVaultDisconnected : VaultState := ⟨none, []⟩

/-- A template used to exercise the disconnected-save path. -/
def exTemplate : Template := ⟨"t1", "Desc", "", "text", false, 0⟩

section Claims

theorem hasSubstr_nil (hay : List Char) : hasSubstr [] hay = true := by
  cases hay <;> simp [hasSubstr, List.isPrefixOf]

theorem mem_sortedByKey {dv : String → ℚ} {key : String} {l : List Prompt}
    {p : Prompt} : p ∈ sortedByKey dv key l ↔ p ∈ l := by
  unfold sortedByKey
  split <;> simp

theorem filter_orderedInsert_score {α : Type} (f : α → ℚ) (s : ℚ) (a : α)
    (l : List α) :
    (List.orderedInsert (fun x y => f y ≤ f x) a l).filter
        (fun x => decide (f x = s)) =
      if f a = s then a :: l.filter (fun x => decide (f x = s))
      else l.filter (fun x => decide (f x = s)) := by
  induction l with
  | nil => by_cases h : f a = s <;> simp [List.orderedInsert, h]
  | cons b t ih =>
    by_cases hr : f b ≤ f a
    · simp only [List.orderedInsert, if_pos hr]
      by_cases h : f a = s <;> simp [List.filter_cons, h]
    · simp only [List.orderedInsert, if_neg hr]
      by_cases h : f a = s
      · have hb : ¬ (f b = s) := fun hb => hr (le_of_eq (hb.trans h.symm))
        simp [List.filter_cons, hb, ih, h]
      · simp [List.filter_cons, ih, h]

theorem filter_insertionSort_score {α : Type} (f : α → ℚ) (s : ℚ)
    (l : List α) :
    (List.insertionSort (fun x y => f y ≤ f x) l).filter
        (fun x => decide (f x = s)) =
      l.filter (fun x => decide (f x = s)) := by
  induction l with
  | nil => rfl
  | cons a t ih =>
    simp only [List.insertionSort]
    rw [filter_orderedInsert_score, ih]
    by_cases h : f a = s <;> simp [List.filter_cons, h]

theorem length_filter_mono {α : Type} (p q : α → Bool)
    (h : ∀ a, q a = true → p a = true) :
    ∀ l : List α, (l.filter q).length ≤ (l.filter p).length := by
  intro l
  induction l with
  | nil => exact Nat.le_refl 0
  | cons a t ih =>
    by_cases hq : q a = true
    · simp [List.filter_cons, hq, h a hq]
      exact ih
    · by_cases hp : p a = true <;>
        simp [List.filter_cons, hq, hp] <;>
        omega

theorem mem_semanticSearch_score {loaded : Bool} {qv : Option (List ℚ)}
    {prompts : List Prompt} {t : ℚ} {k : Nat} {r : ScoredResult}
    (h : r ∈ semanticSearch loaded qv prompts t k) : t ≤ r.score := by
  cases loaded with
  | false => simp [semanticSearch] at h
  | true =>
    cases qv with
    | none => simp [semanticSearch] at h
    | some v =>
      simp only [semanticSearch] at h
      have h1 := List.mem_of_mem_take h
      rw [List.mem_insertionSort] at h1
      have h2 := (List.mem_filter.1 h1).2
      exact of_decide_eq_true h2

theorem dotProduct_self (v : List ℚ) : dotProduct v v = sumSquares v := by
  induction v with
  | nil => rfl
  | cons a t ih =>
    simp [dotProduct, sumSquares, List.zipWith] at ih ⊢
    try exact ih

/-- C7: the similarity function returns the dot product of a vector with
itself (hence 1 on a unit-normalized vector), returns 0 whenever the two
vectors differ in length, and returns 0 (it is total, it cannot throw)
whenever either argument is absent. -/
theorem cosineSimilarity_contract :
    (∀ v : List ℚ, sumSquares v = 1 → cosineSimilarity (some v) (some v) = 1) ∧
    (∀ v w : List ℚ, v.length ≠ w.length → cosineSimilarity (some v) (some w) = 0) ∧
    (∀ o : Option (List ℚ), cosineSimilarity none o = 0 ∧ cosineSimilarity o none = 0) := by
  refine ⟨fun v hv => ?_, fun v w h => ?_, fun o => ⟨rfl, ?_⟩⟩
  · simp [cosineSimilarity, dotProduct_self, hv]
  · simp [cosineSimilarity, h]
  · cases o <;> rfl

/-- C7 witness: the contract evaluated on the unit vector `[3/5, 4/5]`
and on the length-mismatched pair `[1]`, `[1, 2]`. -/
theorem cosineSimilarity_contract_witness :
    cosineSimilarity (some [3/5, 4/5]) (some [3/5, 4/5]) = 1 ∧
    cosineSimilarity (some [1]) (some [1, 2]) = 0 :=
  ⟨cosineSimilarity_contract.1 [3/5, 4/5] (by norm_num [sumSquares]),
   cosineSimilarity_contract.2.1 [1] [1, 2] (by decide)⟩

theorem matchesKeywordApp_empty (p : Prompt) : matchesKeywordApp "" p = true := by
  have h : lowerChars "" = [] := rfl
  rw [matchesKeywordApp, h, hasSubstr_nil]

theorem semanticSearch_length_le (loaded : Bool) (qv : Option (List ℚ))
    (prompts : List Prompt) (t : ℚ) (k : Nat) :
    (semanticSearch loaded qv prompts t k).length ≤ k := by
  cases loaded with
  | false => simp [semanticSearch]
  | true =>
    cases qv with
    | none => simp [semanticSearch]
    | some v => simp [semanticSearch]

/-- C1 (counterexample): on the spec's own scenario — threshold `0.25`,
query vector `[1,0]`, documents with vectors `[1,0]`, `[0,1]`,
`[0.9,0.1]` — the semantic mode of `App.filterAndSortPrompts` returns
`[doc1, doc3, doc2]`: document 2, whose score `0` is below the
threshold, is not excluded from the result list; it is ranked last. -/
theorem semantic_below_threshold_not_excluded :
    (filterAndSortPrompts dateZero true true (some [1, 0]) (1/4) exFilterQ
        [exDoc1, exDoc2, exDoc3]).map (fun p => p.id) =
      ["doc1", "doc3", "doc2"] ∧
    "doc2" ∈ (filterAndSortPrompts dateZero true true (some [1, 0]) (1/4)
        exFilterQ [exDoc1, exDoc2, exDoc3]).map (fun p => p.id) := by
  have h :
      (filterAndSortPrompts dateZero true true (some [1, 0]) (1/4) exFilterQ
          [exDoc1, exDoc2, exDoc3]).map (fun p => p.id) =
        ["doc1", "doc3", "doc2"] := by
    norm_num +decide [filterAndSortPrompts, appSemanticBranch, semanticSearch,
      exFilterQ, exDoc1, exDoc2, exDoc3, cosineSimilarity, dotProduct, effScore,
      scoreMapGet, passesFilters, List.insertionSort, List.orderedInsert,
      List.filter]
  exact ⟨h, by rw [h]; decide⟩

/-- C1 (amended): in semantic ranking mode the application keeps every
document passing the exact filters — below-threshold documents are
retained with effective score 0 rather than excluded — and sorts them
by descending effective score with ties in original relative order;
the threshold cut happens only inside `SemanticSearch.search`, whose
entries all score at least the threshold and number at most the top-K
cap of 50. -/
theorem filterAndSort_semantic_ranking (dv : String → ℚ)
    (qv : Option (List ℚ)) (t : ℚ) (f : SearchFilter)
    (prompts : List Prompt) (hs : f.search ≠ "") :
    (∀ p, p ∈ filterAndSortPrompts dv true true qv t f prompts ↔
        p ∈ prompts ∧ passesFilters f p = true) ∧
    List.Pairwise
      (fun a b => effScore (semanticSearch true qv prompts t 50) b ≤
        effScore (semanticSearch true qv prompts t 50) a)
      (filterAndSortPrompts dv true true qv t f prompts) ∧
    (∀ s : ℚ,
      (filterAndSortPrompts dv true true qv t f prompts).filter
          (fun p => decide (effScore (semanticSearch true qv prompts t 50) p = s)) =
        (prompts.filter (fun p => passesFilters f p)).filter
          (fun p => decide (effScore (semanticSearch true qv prompts t 50) p = s))) ∧
    (∀ r ∈ semanticSearch true qv prompts t 50, t ≤ r.score) ∧
    (semanticSearch true qv prompts t 50).length ≤ 50 := by
  have hres : filterAndSortPrompts dv true true qv t f prompts =
      List.insertionSort
        (fun a b => effScore (semanticSearch true qv prompts t 50) b ≤
          effScore (semanticSearch true qv prompts t 50) a)
        (prompts.filter (fun p => passesFilters f p)) := by
    simp [filterAndSortPrompts, appSemanticBranch, hs]
  refine ⟨?_, ?_, ?_, fun r hr => mem_semanticSearch_score hr,
    semanticSearch_length_le true qv prompts t 50⟩
  · intro p
    rw [hres]
    simp [List.mem_filter]
  · rw [hres]
    haveI : IsTotal Prompt
        (fun a b => effScore (semanticSearch true qv prompts t 50) b ≤
          effScore (semanticSearch true qv prompts t 50) a) :=
      ⟨fun a b => le_total _ _⟩
    haveI : IsTrans Prompt
        (fun a b => effScore (semanticSearch true qv prompts t 50) b ≤
          effScore (semanticSearch true qv prompts t 50) a) :=
      ⟨fun _ _ _ h1 h2 => le_trans h2 h1⟩
    exact List.sorted_insertionSort _ _
  · intro s
    rw [hres]
    exact filter_insertionSort_score
      (effScore (semanticSearch true qv prompts t 50)) s _

/-- C1 (witness): the amended ranking characterisation applied to the
spec's concrete semantic scenario. -/
theorem filterAndSort_semantic_ranking_witness :
    exFilterQ.search ≠ "" ∧
    ((∀ p, p ∈ filterAndSortPrompts dateZero true true (some [1, 0]) (1/4)
          exFilterQ [exDoc1, exDoc2, exDoc3] ↔
        p ∈ [exDoc1, exDoc2, exDoc3] ∧ passesFilters exFilterQ p = true) ∧
    List.Pairwise
      (fun a b =>
        effScore (semanticSearch true (some [1, 0]) [exDoc1, exDoc2, exDoc3]
          (1/4) 50) b ≤
        effScore (semanticSearch true (some [1, 0]) [exDoc1, exDoc2, exDoc3]
          (1/4) 50) a)
      (filterAndSortPrompts dateZero true true (some [1, 0]) (1/4) exFilterQ
        [exDoc1, exDoc2, exDoc3]) ∧
    (∀ s : ℚ,
      (filterAndSortPrompts dateZero true true (some [1, 0]) (1/4) exFilterQ
          [exDoc1, exDoc2, exDoc3]).filter
          (fun p => decide (effScore (semanticSearch true (some [1, 0])
            [exDoc1, exDoc2, exDoc3] (1/4) 50) p = s)) =
        ([exDoc1, exDoc2, exDoc3].filter
            (fun p => passesFilters exFilterQ p)).filter
          (fun p => decide (effScore (semanticSearch true (some [1, 0])
            [exDoc1, exDoc2, exDoc3] (1/4) 50) p = s))) ∧
    (∀ r ∈ semanticSearch true (some [1, 0]) [exDoc1, exDoc2, exDoc3]
        (1/4) 50, (1:ℚ)/4 ≤ r.score) ∧
    (semanticSearch true (some [1, 0]) [exDoc1, exDoc2, exDoc3]
        (1/4) 50).length ≤ 50) :=
  ⟨by decide,
   filterAndSort_semantic_ranking dateZero (some [1, 0]) (1/4) exFilterQ
     [exDoc1, exDoc2, exDoc3] (by decide)⟩

/-- C2: a document failing any active exact filter is excluded from the
results in every ranking mode; in keyword mode (forced by an empty
query) the returned set is exactly the set of documents satisfying all
active filters, for every sort key. -/
theorem exact_filters_invariant :
    (∀ (dv : String → ℚ) (sm loaded : Bool) (qv : Option (List ℚ)) (t : ℚ)
        (f : SearchFilter) (prompts : List Prompt) (p : Prompt),
        p ∈ filterAndSortPrompts dv sm loaded qv t f prompts →
          passesFilters f p = true) ∧
    (∀ (dv : String → ℚ) (sm loaded : Bool) (qv : Option (List ℚ)) (t : ℚ)
        (f : SearchFilter) (prompts : List Prompt) (p : Prompt),
        f.search = "" →
        (p ∈ filterAndSortPrompts dv sm loaded qv t f prompts ↔
          p ∈ prompts ∧ passesFilters f p = true)) := by
  constructor
  · intro dv sm loaded qv t f prompts p h
    simp only [filterAndSortPrompts] at h
    split at h
    · simp [appSemanticBranch, List.mem_filter] at h
      exact h.2
    · simp [appKeywordBranch, mem_sortedByKey, List.mem_filter] at h
      exact h.2.2
  · intro dv sm loaded qv t f prompts p hsearch
    have hcond : decide (f.search ≠ "") = false := by simp [hsearch]
    simp [filterAndSortPrompts, hcond, appKeywordBranch, mem_sortedByKey,
      List.mem_filter, hsearch, matchesKeywordApp_empty]

/-- C2 (witness): the spec's filter scenario — prompts `a`, `b`, `c`
with categories `X`, `Y`, `X` and filter `{category: "X"}` — returns
exactly `a` and `c`. -/
theorem exact_filters_invariant_witness :
    exFilterX.search = "" ∧
    exPromptA ∈ filterAndSortPrompts dateZero false true none 0 exFilterX
      [exPromptA, exPromptB, exPromptC] ∧
    exPromptC ∈ filterAndSortPrompts dateZero false true none 0 exFilterX
      [exPromptA, exPromptB, exPromptC] ∧
    exPromptB ∉ filterAndSortPrompts dateZero false true none 0 exFilterX
      [exPromptA, exPromptB, exPromptC] := by
  refine ⟨rfl, ?_, ?_, ?_⟩
  · exact (exact_filters_invariant.2 dateZero false true none 0 exFilterX
      [exPromptA, exPromptB, exPromptC] exPromptA rfl).2 ⟨by decide, by decide⟩
  · exact (exact_filters_invariant.2 dateZero false true none 0 exFilterX
      [exPromptA, exPromptB, exPromptC] exPromptC rfl).2 ⟨by decide, by decide⟩
  · intro hb
    exact absurd (exact_filters_invariant.1 dateZero false true none 0
      exFilterX [exPromptA, exPromptB, exPromptC] exPromptB hb) (by decide)

/-- C3: whenever the similarity model has not finished loading
(`isLoaded = false`), a semantic-mode search runs exactly the keyword
branch with the same filters, and `SemanticSearch.search` itself
returns an empty list rather than failing. -/
theorem semantic_fallback_not_loaded :
    ∀ (dv : String → ℚ) (sm : Bool) (qv : Option (List ℚ)) (t : ℚ)
      (f : SearchFilter) (prompts : List Prompt),
      filterAndSortPrompts dv sm false qv t f prompts =
        appKeywordBranch dv f prompts ∧
      semanticSearch false qv prompts t 50 = [] := by
  intro dv sm qv t f prompts
  exact ⟨by simp [filterAndSortPrompts], rfl⟩

/-- C4 (counterexample): a document whose notes alone contain the query
is not returned by the application's keyword mode (notes are not part
of its search source), while a query spanning the title/description
boundary is returned although no single field contains it; the
standalone `PromptService.keywordSearch` does match the notes-only
document. -/
theorem keyword_matching_counterexample :
    filterAndSortPrompts dateZero false true none 0 exFilterNeedle
      [exNotesPrompt] = [] ∧
    exNotesPrompt ∈ keywordSearch [exNotesPrompt] "needle" ∧
    filterAndSortPrompts dateZero false true none 0 exFilterAB
      [exSplitPrompt] = [exSplitPrompt] ∧
    hasSubstr (lowerChars "ab") (lowerChars exSplitPrompt.title) = false ∧
    hasSubstr (lowerChars "ab") (lowerChars exSplitPrompt.description) = false ∧
    hasSubstr (lowerChars "ab") (lowerChars exSplitPrompt.prompt_text) = false ∧
    hasSubstr (lowerChars "ab") (lowerChars exSplitPrompt.tags) = false ∧
    hasSubstr (lowerChars "ab") (lowerChars exSplitPrompt.notes) = false := by
  refine ⟨?_, ?_, ?_, ?_, ?_, ?_, ?_, ?_⟩ <;> decide

/-- C4 (amended): in the application's keyword mode a document is
returned iff it passes the exact filters and the lowercased query is a
substring of the concatenation of title, description, body text and
tags (notes excluded, matches may span field boundaries); the
standalone `PromptService.keywordSearch` instead matches iff the query
is a substring of at least one of title, description, body text, tags
or notes. -/
theorem keyword_matching_characterization :
    ∀ (dv : String → ℚ) (loaded : Bool) (qv : Option (List ℚ)) (t : ℚ)
      (f : SearchFilter) (prompts : List Prompt) (p : Prompt),
      (p ∈ filterAndSortPrompts dv false loaded qv t f prompts ↔
        p ∈ prompts ∧ passesFilters f p = true ∧
          hasSubstr (lowerChars f.search) (appSearchSource p) = true) ∧
      (p ∈ keywordSearch prompts f.search ↔
        p ∈ prompts ∧
          (hasSubstr (lowerChars f.search) (lowerChars p.title) ||
           hasSubstr (lowerChars f.search) (lowerChars p.description) ||
           hasSubstr (lowerChars f.search) (lowerChars p.prompt_text) ||
           hasSubstr (lowerChars f.search) (lowerChars p.tags) ||
           hasSubstr (lowerChars f.search) (lowerChars p.notes)) = true) := by
  intro dv loaded qv t f prompts p
  constructor
  · simp [filterAndSortPrompts, appKeywordBranch, mem_sortedByKey,
      List.mem_filter, matchesKeywordApp, and_comm]
  · by_cases hq : f.search = ""
    · rw [hq]
      simp [keywordSearch, show lowerChars "" = [] from rfl, hasSubstr_nil]
    · simp [keywordSearch, hq, List.mem_filter]

/-- C8: raising the similarity threshold never increases the number of
results of `SemanticSearch.search`. -/
theorem semanticSearch_threshold_mono :
    ∀ (loaded : Bool) (qv : Option (List ℚ)) (prompts : List Prompt)
      (t1 t2 : ℚ), t1 < t2 →
      (semanticSearch loaded qv prompts t2 50).length ≤
        (semanticSearch loaded qv prompts t1 50).length := by
  intro loaded qv prompts t1 t2 h
  cases loaded with
  | false => simp [semanticSearch]
  | true =>
    cases qv with
    | none => simp [semanticSearch]
    | some v =>
      simp only [semanticSearch, Bool.not_true, Bool.false_eq_true, if_false,
        List.length_take]
      apply min_le_min (le_refl 50)
      rw [(List.perm_insertionSort _ _).length_eq,
        (List.perm_insertionSort _ _).length_eq]
      exact length_filter_mono _ _
        (fun r hr =>
          decide_eq_true (le_trans (le_of_lt h) (of_decide_eq_true hr))) _

/-- C8 (witness): the monotone-shrink property at thresholds 0 and 1 on
a one-document set. -/
theorem semanticSearch_threshold_mono_witness :
    (0:ℚ) < 1 ∧
    (semanticSearch true (some [1, 0]) [exDoc1] 1 50).length ≤
      (semanticSearch true (some [1, 0]) [exDoc1] 0 50).length :=
  ⟨by norm_num,
   semanticSearch_threshold_mono true (some [1, 0]) [exDoc1] 0 1 (by norm_num)⟩

/-- C10 (counterexample): duplicating a prompt whose title is empty
yields the title `COPY Untitled`, not `COPY ` followed by the (empty)
original title. -/
theorem duplicatePrompt_empty_title_counterexample :
    (duplicatePrompt exUntitledPrompt "n1" "2026-02-03").title =
      "COPY Untitled" ∧
    (duplicatePrompt exUntitledPrompt "n1" "2026-02-03").title ≠
      "COPY " ++ exUntitledPrompt.title := by
  exact ⟨by decide, by decide⟩

/-- C10 (amended): `duplicatePrompt` returns a copy with the freshly
generated id, empty version list, null embedding, draft status, the
title `COPY ` + original title (`Untitled` standing in for an empty
title), and all other content fields copied unchanged. -/
theorem duplicatePrompt_characterization :
    ∀ (p : Prompt) (newId now : String),
      (duplicatePrompt p newId now).id = newId ∧
      (duplicatePrompt p newId now).versions = [] ∧
      (duplicatePrompt p newId now).embedding = none ∧
      (duplicatePrompt p newId now).status = "draft" ∧
      (duplicatePrompt p newId now).title =
        "COPY " ++ (if p.title = "" then "Untitled" else p.title) ∧
      (duplicatePrompt p newId now).description = p.description ∧
      (duplicatePrompt p newId now).prompt_text = p.prompt_text ∧
      (duplicatePrompt p newId now).tags = p.tags ∧
      (duplicatePrompt p newId now).notes = p.notes ∧
      (duplicatePrompt p newId now).category = p.category ∧
      (duplicatePrompt p newId now).client = p.client := by
  intro p newId now
  exact ⟨rfl, rfl, rfl, rfl, rfl, rfl, rfl, rfl, rfl, rfl, rfl⟩

theorem filter_no_orphan (pid old : String) (l : List (String × String))
    (h : ∀ e ∈ l, e.2 = pid → e.1 = old) (q : String × String → Bool)
    (hq : ∀ e, q e = true → ¬(e.1 = old)) :
    (l.filter q).filter (fun e => decide (e.2 = pid)) = [] := by
  rw [List.filter_eq_nil_iff]
  intro e he hd
  obtain ⟨hl, hqe⟩ := List.mem_filter.1 he
  exact hq e hqe (h e hl (of_decide_eq_true hd))

/-- C5 (counterexample): with no directory selected, the Vault delete
operations return successfully with the state unchanged — a silent
no-op, not a fail-fast `NotConnectedError`. -/
theorem vault_delete_disconnected_silent :
    vaultDeletePrompt exVaultDisconnected "x" = .ok exVaultDisconnected ∧
    vaultDeleteTemplate exVaultDisconnected "x" = .ok exVaultDisconnected :=
  ⟨rfl, rfl⟩

/-- C5 (amended): with no directory selected, the Vault save operations
fail fast with the `Vault not connected` error, while the delete
operations silently succeed without doing anything. -/
theorem vault_disconnected_behaviour :
    ∀ (st : VaultState) (p : Prompt) (t : Template) (id : String),
      st.dir = none →
      vaultSavePrompt st p = .error "Vault not connected" ∧
      vaultSaveTemplate st t = .error "Vault not connected" ∧
      vaultDeletePrompt st id = .ok st ∧
      vaultDeleteTemplate st id = .ok st := by
  intro st p t id h
  obtain ⟨d, fm⟩ := st
  cases d with
  | none => exact ⟨rfl, rfl, rfl, rfl⟩
  | some fs => simp at h

/-- C5 (witness): the disconnected-state behaviour evaluated on a fresh
repo instance. -/
theorem vault_disconnected_behaviour_witness :
    exVaultDisconnected.dir = none ∧
    (vaultSavePrompt exVaultDisconnected exVaultFinal =
        .error "Vault not connected" ∧
      vaultSaveTemplate exVaultDisconnected exTemplate =
        .error "Vault not connected" ∧
      vaultDeletePrompt exVaultDisconnected "p1" = .ok exVaultDisconnected ∧
      vaultDeleteTemplate exVaultDisconnected "p1" = .ok exVaultDisconnected) :=
  ⟨rfl, vault_disconnected_behaviour exVaultDisconnected exVaultFinal
    exTemplate "p1" rfl⟩

/-- C6 (counterexample): after a restart the identity index is empty;
re-persisting `p1` with its title changed from `Draft` to `Final` does
not scan for (or remove) the old file, so a subsequent full scan
resolves two files for the id, and `Draft__p1.json` is still there. -/
theorem vault_rename_after_restart_duplicates :
    (vaultSavePrompt exVaultRestartState exVaultFinal).map
      (countFilesWithId "p1") = .ok 2 ∧
    (vaultSavePrompt exVaultRestartState exVaultFinal).map
      (fun s => hasFile s "Draft__p1.json" "p1") = .ok true :=
  ⟨rfl, rfl⟩

/-- C6 (amended): when the identity index maps the id to the file that
is the unique holder of the id in the directory (as a full `loadAll`
leaves it), re-persisting the document removes the old file within the
same write: afterwards exactly one file carries the id, and it bears
the name derived from the new title.  Without an index entry (e.g.
after a restart) `savePrompt` performs no scan fallback and the old
file is orphaned. -/
theorem count_after_write (pid new : String) (l : List (String × String))
    (h : ∀ e ∈ l, ¬(e.2 = pid)) :
    ((l ++ [(new, pid)]).filter (fun e => decide (e.2 = pid))).length = 1 := by
  rw [List.filter_append]
  have h0 : l.filter (fun e => decide (e.2 = pid)) = [] :=
    List.filter_eq_nil_iff.2 (fun e he => by simpa using h e he)
  rw [h0]
  simp

theorem vault_rename_safe_with_index :
    ∀ (files fm : List (String × String)) (p : Prompt) (old : String),
      assocGet fm p.id = some old →
      (∀ e ∈ files, e.2 = p.id → e.1 = old) →
      (vaultSavePrompt ⟨some files, fm⟩ p).map (countFilesWithId p.id) =
        .ok 1 ∧
      (vaultSavePrompt ⟨some files, fm⟩ p).map
        (fun s => hasFile s (vaultPromptFileName p) p.id) = .ok true := by
  intro files fm p old hget huniq
  have hstep : vaultSavePrompt ⟨some files, fm⟩ p =
      .ok ⟨some (vaultWrite
          (if old = vaultPromptFileName p then files
           else files.filter (fun e => !(e.1 == old)))
          (vaultPromptFileName p) p.id),
        assocSet fm p.id (vaultPromptFileName p)⟩ := by
    simp only [vaultSavePrompt, hget]
  have hclean : ∀ e ∈ (if old = vaultPromptFileName p then files
      else files.filter (fun e => !(e.1 == old))).filter
        (fun e => !(e.1 == vaultPromptFileName p)), ¬(e.2 = p.id) := by
    intro e he hid
    by_cases hone : old = vaultPromptFileName p
    · rw [if_pos hone] at he
      obtain ⟨hl, hne⟩ := List.mem_filter.1 he
      have heq := huniq e hl hid
      rw [heq, hone] at hne
      simp at hne
    · rw [if_neg hone] at he
      obtain ⟨hl, hne⟩ := List.mem_filter.1 he
      obtain ⟨hl2, hne2⟩ := List.mem_filter.1 hl
      have heq := huniq e hl2 hid
      rw [heq] at hne2
      simp at hne2
  constructor
  · rw [hstep]
    simp only [Except.map, countFilesWithId, vaultWrite]
    exact congrArg Except.ok (count_after_write p.id (vaultPromptFileName p) _ hclean)
  · rw [hstep]
    simp [Except.map, hasFile, vaultWrite, List.any_append]

/-- C6 (witness): the spec's rename scenario with a populated index:
`Draft__p1.json` re-persisted under the title `Final` leaves exactly
one file for `p1`, named `Final__p1.json`. -/
theorem vault_rename_safe_with_index_witness :
    assocGet [("p1", "Draft__p1.json")] exVaultFinal.id =
      some "Draft__p1.json" ∧
    (∀ e ∈ [("Draft__p1.json", "p1")], e.2 = exVaultFinal.id →
      e.1 = "Draft__p1.json") ∧
    ((vaultSavePrompt ⟨some [("Draft__p1.json", "p1")],
        [("p1", "Draft__p1.json")]⟩ exVaultFinal).map
        (countFilesWithId exVaultFinal.id) = .ok 1 ∧
      (vaultSavePrompt ⟨some [("Draft__p1.json", "p1")],
        [("p1", "Draft__p1.json")]⟩ exVaultFinal).map
        (fun s => hasFile s (vaultPromptFileName exVaultFinal)
          exVaultFinal.id) = .ok true) :=
  ⟨by decide, by decide,
   vault_rename_safe_with_index [("Draft__p1.json", "p1")]
     [("p1", "Draft__p1.json")] exVaultFinal "Draft__p1.json"
     (by decide) (by decide)⟩

/-- C9 (counterexample): when the open request fires `blocked`, the
caller of `init` receives no typed failure at all — the promise is
still unsettled, only an alert was raised — so there is no distinct
`BlockedError`-style failure to distinguish from a connection error. -/
theorem blocked_init_no_typed_failure :
    (runInit [.blocked]).outcome = none ∧
    (runInit [.blocked]).alerts = [blockedAlert] ∧
    (runInit [.errorEvt]).outcome = some (.error "DB Error") :=
  ⟨rfl, rfl, rfl⟩

/-- C9 (amended): a blocked upgrade raises the actionable
close-other-sessions alert and leaves the init promise unsettled (it is
not fatal: a later success still resolves), while an unreachable
backend rejects with the untyped string `DB Error` after its own alert;
the two conditions are distinguishable only by the alert text, not by
distinct typed failures delivered to the caller. -/
theorem init_blocked_vs_error_observables :
    ∀ rest : List DbEvent,
      (runInit (.blocked :: rest)).outcome = (runInit rest).outcome ∧
      (runInit (.blocked :: rest)).alerts =
        blockedAlert :: (runInit rest).alerts ∧
      (runInit (.blocked :: .success :: rest)).outcome = some (.ok ()) ∧
      (runInit (.errorEvt :: rest)).outcome = some (.error "DB Error") ∧
      (runInit (.errorEvt :: rest)).alerts = [dbErrorAlert] ∧
      blockedAlert ≠ dbErrorAlert := by
  intro rest
  exact ⟨rfl, rfl, rfl, rfl, rfl, by decide⟩

end Claims
